import Mathlib

/-!
Shallow embedding of the alchql cursor-pagination core and of the
`LoaderMiddleware` from `src/graphene_sqlalchemy_core/loaders_middleware.py`.

The Cursor Codec and Connection Windower modules are not present under
`src/` (only their tests in `src/tests/test_pagination.py` exercise them),
so they are modelled from the spec (sections 4.1 and 4.2) and checked for
consistency with the concrete behaviour pinned down by those tests.
-/

/-- Error taxonomy of the pagination engine, per spec section 7
(`InvalidPagination`, `InvalidCursor`), plus the ambiguous-ordering
failure exercised by `test_query_only_last_specified`. -/
inductive PaginationError where
  | invalidPagination
  | invalidCursor
  | ambiguousOrdering
deriving DecidableEq

/-- Character of a single decimal digit `d < 10`. -/
def digitChar (d : Nat) : Char := Char.ofNat (48 + d)

/-- Decimal value of a digit character; `none` when `c` is not a digit. -/
def charDigit (c : Char) : Option Nat :=
  if 48 ≤ c.toNat ∧ c.toNat ≤ 57 then some (c.toNat - 48) else none

/-- Most-significant-first decimal digits of `n`; `fuel` bounds the
recursion depth (any `fuel > n` gives the digits of `n`). -/
def natToDigitsAux : Nat → Nat → List Char
  | 0, _ => []
  | fuel + 1, n =>
    if n < 10 then [digitChar n]
    else natToDigitsAux fuel (n / 10) ++ [digitChar (n % 10)]

/-- Most-significant-first decimal digits of `n`. -/
def natToDigits (n : Nat) : List Char := natToDigitsAux (n + 1) n

/-- Modelled from the spec: the Cursor Codec's `encode` (spec section 4.1;
the codec module is absent from `src/`). The cursor is an opaque string
embedding exactly the integer position, here its decimal digits. -/
def encodeCursor (n : Nat) : String := String.mk (natToDigits n)

/-- Left-to-right accumulating decimal parse; `none` on any non-digit. -/
def parseDigitsAux (acc : Nat) : List Char → Option Nat
  | [] => some acc
  | c :: cs =>
    match charDigit c with
    | some d => parseDigitsAux (acc * 10 + d) cs
    | none => none

/-- Modelled from the spec: the Cursor Codec's `decode` (spec section 4.1;
the codec module is absent from `src/`). Fails with `InvalidCursor` when
the string is malformed (empty or holding any non-digit, which subsumes
strings denoting negative values). -/
def decodeCursor (s : String) : Except PaginationError Nat :=
  match s.data with
  | [] => .error .invalidCursor
  | c :: cs =>
    match parseDigitsAux 0 (c :: cs) with
    | some n => .ok n
    | none => .error .invalidCursor

instance {ε α : Type} [DecidableEq ε] [DecidableEq α] : DecidableEq (Except ε α) := fun x y =>
  match x, y with
  | .ok a, .ok b =>
    if h : a = b then .isTrue (congrArg Except.ok h)
    else .isFalse (fun hh => h (Except.ok.inj hh))
  | .error a, .error b =>
    if h : a = b then .isTrue (congrArg Except.error h)
    else .isFalse (fun hh => h (Except.error.inj hh))
  | .ok _, .error _ => .isFalse (fun hh => Except.noConfusion hh)
  | .error _, .ok _ => .isFalse (fun hh => Except.noConfusion hh)

/-- Connection arguments, per spec section 3: optional `first`/`last`
page sizes (GraphQL integers, hence possibly negative) and optional
`after`/`before` cursors, here already decoded to row offsets. -/
structure ConnectionArgs where
  first : Option Int
  last : Option Int
  after : Option Nat
  before : Option Nat
deriving DecidableEq

/-- Page info of a connection page: start/end cursors and the two
has-page flags. -/
structure PageInfo where
  startCursor : Option String
  endCursor : Option String
  hasPreviousPage : Bool
  hasNextPage : Bool
deriving DecidableEq

/-- A returned page: the positions (in the total ordering) of the rows of
the slice, plus the page info. -/
structure Page where
  rows : List Nat
  pageInfo : PageInfo
deriving DecidableEq

/-- Exclusive lower bound `lo` resolved from the `after` cursor
(spec section 4.2 step 1; default `-1`). -/
def loBound (args : ConnectionArgs) : Int :=
  match args.after with
  | some a => (a : Int)
  | none => -1

/-- Exclusive upper bound `hi` resolved from the `before` cursor
(spec section 4.2 step 1; default = total count). -/
def hiBound (N : Nat) (args : ConnectionArgs) : Int :=
  match args.before with
  | some b => (b : Int)
  | none => (N : Int)

/-- Effective window size `hi - lo - 1` (spec section 4.2 step 2, before
clamping). -/
def effectiveWindow (N : Nat) (args : ConnectionArgs) : Int :=
  hiBound N args - loBound args - 1

/-- Modelled from the spec: the Connection Windower (spec section 4.2; the
windower module is absent from `src/`, only its tests are). `N` is the
total row count of the ordered base query, `D` the configurable default
page size, `hasTiebreaker` whether the base query carries a deterministic
tiebreaker ordering. Validation follows spec sections 3 and 4.2 step 5
(`first`/`last` mutually exclusive; negative `first`/`last` rejected) and
the tiebreaker invariant of spec section 8 (`last` with no other bound on
an untiebroken query fails). The slice follows spec section 4.2 step 3;
the page-info flags are computed against the full dataset, matching every
page-info assertion of `src/tests/test_pagination.py`. -/
def applyWindow (N D : Nat) (hasTiebreaker : Bool) (args : ConnectionArgs) :
    Except PaginationError Page :=
  if args.first.isSome ∧ args.last.isSome then .error .invalidPagination
  else if args.first.getD 0 < 0 ∨ args.last.getD 0 < 0 then .error .invalidPagination
  else if args.last.isSome ∧ args.first = none ∧ args.after = none ∧
      args.before = none ∧ hasTiebreaker = false then .error .ambiguousOrdering
  else
    let lo := loBound args
    let hi := hiBound N args
    let startStop : Int × Int :=
      match args.last with
      | some l => (max (max (hi - l) (lo + 1)) 0, min (hi - 1) ((N : Int) - 1))
      | none =>
        let f := args.first.getD (D : Int)
        (max (lo + 1) 0, min (min (lo + f) (hi - 1)) ((N : Int) - 1))
    let start := startStop.1
    let stop := startStop.2
    let rows : List Nat := List.range' start.toNat (stop + 1 - start).toNat
    .ok
      { rows := rows
        pageInfo :=
          { startCursor := rows.head?.map encodeCursor
            endCursor := rows.getLast?.map encodeCursor
            hasPreviousPage := decide (0 < start)
            hasNextPage := decide (stop + 1 < (N : Int)) } }

/-- Pipeline of `test_last_before_specified`: fetch a `first = firstSize`
page, decode its end cursor, then request `last = lastSize` with `before`
set to that cursor, over `N` rows with default page size `D`. -/
def lastBeforePipeline (N D firstSize lastSize : Nat) : Except PaginationError Page := do
  let p ← applyWindow N D true ⟨some (firstSize : Int), none, none, none⟩
  match p.pageInfo.endCursor with
  | none => .error .invalidCursor
  | some c =>
    let off ← decodeCursor c
    applyWindow N D true ⟨none, some (lastSize : Int), none, some off⟩

/-- Pipeline of `test_query_first_after_specified`: fetch a
`first = firstSize` page, decode its end cursor, then request
`first = nextFirst` with `after` set to that cursor. -/
def firstAfterPipeline (N D firstSize nextFirst : Nat) : Except PaginationError Page := do
  let p ← applyWindow N D true ⟨some (firstSize : Int), none, none, none⟩
  match p.pageInfo.endCursor with
  | none => .error .invalidCursor
  | some c =>
    let off ← decodeCursor c
    applyWindow N D true ⟨some (nextFirst : Int), none, some off, none⟩

/-- A declared ORM relationship: parent entity type
(`relationship.parent.entity`), child entity type
(`relationship.mapper.entity`) and relationship field name
(`relationship.key`), as read in `loaders_middleware.py` lines 19-24. -/
structure Relationship (Entity : Type) where
  parent : Entity
  child : Entity
  key : String
deriving DecidableEq

/-- Relationship Key: the triple (parent entity type, child entity type,
relationship field name) used as the mapping key
(`loaders_middleware.py` lines 20-24). -/
abbrev RelKey (Entity : Type) : Type := Entity × Entity × String

/-- The key triple of a relationship. -/
def relKey {E : Type} (r : Relationship E) : RelKey E := (r.parent, r.child, r.key)

/-- An entity type (ORM model) as the middleware inspects it: its list of
declared relationships (`sa.inspect(model).relationships.values()`). -/
structure ModelDef (Entity : Type) where
  relationships : List (Relationship Entity)

/-- Modelled from the spec: the loader factory returned by
`generate_loader_by_foreign_key` (the `loader_fk` module is absent from
`src/`). Per spec section 4.4 the registry constructs one Relationship
Loader per declared relationship, so a factory is determined by the
relationship it was generated from. -/
structure LoaderFactory (Entity : Type) where
  rel : Relationship Entity
deriving DecidableEq

/-- `generate_loader_by_foreign_key(relationship)`
(`loaders_middleware.py` line 25). -/
def generate_loader_by_foreign_key {E : Type} (r : Relationship E) : LoaderFactory E := ⟨r⟩

/-- A Relationship Loader instance, i.e. a factory applied to a session
(`v(session)`, `loaders_middleware.py` line 31). `allocId` models Python
object identity: every constructed instance carries a fresh allocation
id drawn from a counter threaded through `resolve`. -/
structure Loader (Entity Session : Type) where
  rel : Relationship Entity
  session : Session
  allocId : Nat
deriving DecidableEq

/-- Python `dict` assignment `d[k] = v`: overwrite in place when the key
is present, else append at the end. -/
def dictInsert {κ α : Type} [DecidableEq κ] (k : κ) (v : α) :
    List (κ × α) → List (κ × α)
  | [] => [(k, v)]
  | (k', v') :: rest =>
    if k' = k then (k', v) :: rest else (k', v') :: dictInsert k v rest

/-- Python `dict` lookup `d[k]`. -/
def dictFind {κ α : Type} [DecidableEq κ] (k : κ) : List (κ × α) → Option α
  | [] => none
  | (k', v) :: rest => if k' = k then some v else dictFind k rest

/-- `LoaderMiddleware.__init__` (`loaders_middleware.py` lines 12-25):
for each model, for each of its declared relationships, store the
generated loader factory in the dict under the relationship's key
triple. -/
def initLoaders {E : Type} [DecidableEq E] (models : List (ModelDef E)) :
    List (RelKey E × LoaderFactory E) :=
  models.foldl
    (fun acc m =>
      m.relationships.foldl
        (fun acc' r => dictInsert (relKey r) (generate_loader_by_foreign_key r) acc')
        acc)
    []

/-- All relationships declared by the given models, in iteration order. -/
def allRels {E : Type} (models : List (ModelDef E)) : List (Relationship E) :=
  models.foldr (fun m acc => m.relationships ++ acc) []

/-- The loader middleware: the factory dict built by `__init__`. -/
structure LoaderMiddleware (Entity : Type) where
  loaders : List (RelKey Entity × LoaderFactory Entity)

/-- `LoaderMiddleware(models)`. -/
def LoaderMiddleware.ofModels {E : Type} [DecidableEq E] (models : List (ModelDef E)) :
    LoaderMiddleware E :=
  ⟨initLoaders models⟩

/-- The per-request execution context (`info.context`): the active
data-access session and the loader mapping the middleware stashes on
it. -/
structure ExecutionContext (Entity Session : Type) where
  session : Session
  loaders : List (RelKey Entity × Loader Entity Session)

/-- Modelled from the spec: `get_session(info.context)` (absent from
`src/`) reads the active data-access session off the execution
context. -/
def get_session {E S : Type} (ctx : ExecutionContext E S) : S := ctx.session

/-- The dict comprehension `{k: v(session) for k, v in self.loaders.items()}`
(`loaders_middleware.py` line 31): one freshly constructed loader
instance per factory, bound to `session`; allocation ids
`base, base + 1, ...` model the freshness of each constructed object. -/
def makeLoaders {E S : Type} :
    List (RelKey E × LoaderFactory E) → S → Nat → List (RelKey E × Loader E S)
  | [], _, _ => []
  | (k, f) :: rest, s, base => (k, ⟨f.rel, s, base⟩) :: makeLoaders rest s (base + 1)

/-- A resolver's result, possibly awaitable (`isawaitable(result)`). -/
inductive ResolverResult (α : Type) where
  | plain (a : α)
  | awaitable (a : α)

/-- `await result` when it is awaitable, else the result itself
(`loaders_middleware.py` lines 33-36). -/
def awaitIfNeeded {α : Type} : ResolverResult α → α
  | .plain a => a
  | .awaitable a => a

/-- `LoaderMiddleware.resolve` (`loaders_middleware.py` lines 27-36):
when `root is None`, replace `info.context.loaders` with fresh loader
instances bound to the active session; then call the inner resolver on
the (possibly updated) context and await its result if needed. Returns
the resolved value, the final context, and the advanced allocation
counter. -/
def LoaderMiddleware.resolve {E S ρ α β : Type} (mw : LoaderMiddleware E)
    (next_ : Option ρ → ExecutionContext E S → β → ResolverResult α)
    (root : Option ρ) (ctx : ExecutionContext E S) (alloc : Nat) (args : β) :
    α × ExecutionContext E S × Nat :=
  match root with
  | none =>
    let session := get_session ctx
    let ctx' : ExecutionContext E S :=
      { ctx with loaders := makeLoaders mw.loaders session alloc }
    (awaitIfNeeded (next_ root ctx' args), ctx', alloc + mw.loaders.length)
  | some _ => (awaitIfNeeded (next_ root ctx args), ctx, alloc)

/-- A one-relationship middleware over `Entity = Nat`, used to
instantiate the loader theorems on a concrete input. -/
def mwExample : LoaderMiddleware Nat := ⟨[((0, 1, "books"), ⟨⟨0, 1, "books"⟩⟩)]⟩

/-- A concrete inner resolver returning a plain (non-awaitable) value. -/
def nextExample : Option Unit → ExecutionContext Nat Nat → Unit → ResolverResult Nat :=
  fun _ _ _ => .plain 0

/-- A concrete execution context with session `3` and no loaders. -/
def ctxExample : ExecutionContext Nat Nat := ⟨3, []⟩

/-- A second concrete execution context with session `4`. -/
def ctxExample2 : ExecutionContext Nat Nat := ⟨4, []⟩

lemma charDigit_digitChar (d : Nat) (h : d < 10) : charDigit (digitChar d) = some d := by
  interval_cases d <;> decide

lemma parseDigitsAux_append (l₁ l₂ : List Char) (acc m : Nat)
    (h : parseDigitsAux acc l₁ = some m) :
    parseDigitsAux acc (l₁ ++ l₂) = parseDigitsAux m l₂ := by
  induction l₁ generalizing acc with
  | nil =>
    simp [parseDigitsAux] at h
    simp [h]
  | cons c cs ih =>
    cases hc : charDigit c with
    | none => simp [parseDigitsAux, hc] at h
    | some d =>
      simp only [parseDigitsAux, hc] at h
      simpa [parseDigitsAux, hc] using ih _ h

lemma parseDigitsAux_natToDigitsAux (fuel : Nat) :
    ∀ n acc, n < fuel →
      parseDigitsAux acc (natToDigitsAux fuel n) =
        some (acc * 10 ^ (natToDigitsAux fuel n).length + n) := by
  induction fuel with
  | zero => intro n acc h; omega
  | succ fuel ih =>
    intro n acc h
    by_cases h10 : n < 10
    · simp [natToDigitsAux, h10, parseDigitsAux, charDigit_digitChar n h10]
    · have hdiv : n / 10 < fuel := by omega
      have hmod : n % 10 < 10 := Nat.mod_lt _ (by omega)
      rw [natToDigitsAux, if_neg h10,
        parseDigitsAux_append _ _ acc _ (ih (n / 10) acc hdiv)]
      simp only [parseDigitsAux, charDigit_digitChar (n % 10) hmod,
        List.length_append, List.length_cons, List.length_nil]
      congr 1
      have hx : (10 : Nat) ^ ((natToDigitsAux fuel (n / 10)).length + (0 + 1)) =
          10 ^ (natToDigitsAux fuel (n / 10)).length * 10 := by
        rw [Nat.zero_add, pow_succ]
      rw [hx]
      have hnm : n % 10 + 10 * (n / 10) = n := Nat.mod_add_div n 10
      generalize (10 : Nat) ^ (natToDigitsAux fuel (n / 10)).length = x
      ring_nf
      omega

lemma natToDigits_ne_nil (n : Nat) : natToDigits n ≠ [] := by
  rw [natToDigits, natToDigitsAux]
  by_cases h10 : n < 10 <;> simp [h10]

lemma parseDigitsAux_natToDigits (n : Nat) :
    parseDigitsAux 0 (natToDigits n) = some n := by
  have := parseDigitsAux_natToDigitsAux (n + 1) n 0 (Nat.lt_succ_self n)
  simpa [natToDigits] using this

lemma decodeCursor_encodeCursor (n : Nat) : decodeCursor (encodeCursor n) = .ok n := by
  obtain ⟨c, cs, hcc⟩ := List.exists_cons_of_ne_nil (natToDigits_ne_nil n)
  have hdata : (encodeCursor n).data = c :: cs := by
    simp [encodeCursor, hcc]
  have hparse : parseDigitsAux 0 (c :: cs) = some n := by
    rw [← hcc]; exact parseDigitsAux_natToDigits n
  simp [decodeCursor, hdata, hparse]


lemma dictFind_dictInsert_self {κ α : Type} [DecidableEq κ] (k : κ) (v : α)
    (d : List (κ × α)) : dictFind k (dictInsert k v d) = some v := by
  induction d with
  | nil => simp [dictInsert, dictFind]
  | cons p rest ih =>
    obtain ⟨k', v'⟩ := p
    by_cases h : k' = k
    · simp [dictInsert, dictFind, h]
    · simp [dictInsert, dictFind, h, ih]

lemma dictFind_dictInsert_ne {κ α : Type} [DecidableEq κ] (k q : κ) (v : α)
    (d : List (κ × α)) (h : q ≠ k) :
    dictFind q (dictInsert k v d) = dictFind q d := by
  induction d with
  | nil => simp [dictInsert, dictFind, Ne.symm h]
  | cons p rest ih =>
    obtain ⟨k', v'⟩ := p
    by_cases h0 : k' = k
    · subst h0
      simp [dictInsert, dictFind, Ne.symm h]
    · simp [dictInsert, dictFind, h0, ih]

lemma mem_keys_dictInsert {κ α : Type} [DecidableEq κ] (k q : κ) (v : α)
    (d : List (κ × α)) :
    q ∈ (dictInsert k v d).map Prod.fst ↔ q = k ∨ q ∈ d.map Prod.fst := by
  induction d with
  | nil => simp [dictInsert]
  | cons p rest ih =>
    obtain ⟨k', v'⟩ := p
    by_cases h0 : k' = k
    · subst h0
      simp [dictInsert]
    · simp [dictInsert, h0, ih]
      tauto

lemma nodup_keys_dictInsert {κ α : Type} [DecidableEq κ] (k : κ) (v : α)
    (d : List (κ × α)) (h : (d.map Prod.fst).Nodup) :
    ((dictInsert k v d).map Prod.fst).Nodup := by
  induction d with
  | nil => simp [dictInsert]
  | cons p rest ih =>
    obtain ⟨k', v'⟩ := p
    rw [List.map_cons, List.nodup_cons] at h
    by_cases h0 : k' = k
    · subst h0
      simpa [dictInsert] using And.intro h.1 h.2
    · simp only [dictInsert, if_neg h0, List.map_cons, List.nodup_cons]
      refine ⟨?_, ih h.2⟩
      rw [mem_keys_dictInsert]
      rintro (hq | hq)
      · exact h0 hq
      · exact h.1 hq

lemma dictFind_isSome_iff {κ α : Type} [DecidableEq κ] (k : κ) (d : List (κ × α)) :
    (dictFind k d).isSome ↔ k ∈ d.map Prod.fst := by
  induction d with
  | nil => simp [dictFind]
  | cons p rest ih =>
    obtain ⟨k', v'⟩ := p
    by_cases h0 : k' = k
    · simp [dictFind, h0]
    · simp only [dictFind, if_neg h0, List.map_cons, List.mem_cons, ih]
      constructor
      · exact Or.inr
      · rintro (hq | hq)
        · exact absurd hq.symm h0
        · exact hq

lemma initLoaders_eq_foldl {E : Type} [DecidableEq E] (models : List (ModelDef E)) :
    initLoaders models =
      (allRels models).foldl
        (fun acc r => dictInsert (relKey r) (generate_loader_by_foreign_key r) acc) [] := by
  suffices h : ∀ (ms : List (ModelDef E)) (acc : List (RelKey E × LoaderFactory E)),
      ms.foldl
        (fun a m =>
          m.relationships.foldl
            (fun a' r => dictInsert (relKey r) (generate_loader_by_foreign_key r) a') a)
        acc =
        (allRels ms).foldl
          (fun acc' r => dictInsert (relKey r) (generate_loader_by_foreign_key r) acc') acc by
    exact h models []
  intro ms
  induction ms with
  | nil => intro acc; rfl
  | cons m rest ih =>
    intro acc
    simp only [List.foldl_cons, allRels, List.foldr_cons, List.foldl_append]
    rw [ih]
    rfl

lemma dictFind_relFoldl_not_mem {E : Type} [DecidableEq E] (l : List (Relationship E))
    (acc : List (RelKey E × LoaderFactory E)) (k : RelKey E) (h : k ∉ l.map relKey) :
    dictFind k
        (l.foldl (fun a r => dictInsert (relKey r) (generate_loader_by_foreign_key r) a) acc) =
      dictFind k acc := by
  induction l generalizing acc with
  | nil => rfl
  | cons r rest ih =>
    simp at h
    rw [List.foldl_cons, ih _ (by simpa using h.2), dictFind_dictInsert_ne _ _ _ _ h.1]

lemma dictFind_relFoldl_mem {E : Type} [DecidableEq E] (l : List (Relationship E))
    (acc : List (RelKey E × LoaderFactory E)) (r : Relationship E) (hr : r ∈ l)
    (hnd : (l.map relKey).Nodup) :
    dictFind (relKey r)
        (l.foldl (fun a x => dictInsert (relKey x) (generate_loader_by_foreign_key x) a) acc) =
      some (generate_loader_by_foreign_key r) := by
  induction l generalizing acc with
  | nil => cases hr
  | cons r₀ rest ih =>
    rw [List.map_cons, List.nodup_cons] at hnd
    rcases List.mem_cons.mp hr with h | h
    · subst h
      rw [List.foldl_cons, dictFind_relFoldl_not_mem rest _ _ hnd.1,
        dictFind_dictInsert_self]
    · exact ih _ h hnd.2

lemma mem_keys_relFoldl {E : Type} [DecidableEq E] (l : List (Relationship E))
    (acc : List (RelKey E × LoaderFactory E)) (k : RelKey E) :
    (k ∈ (l.foldl (fun a r => dictInsert (relKey r) (generate_loader_by_foreign_key r) a)
        acc).map Prod.fst) ↔ k ∈ acc.map Prod.fst ∨ ∃ r ∈ l, relKey r = k := by
  induction l generalizing acc with
  | nil => simp
  | cons r₀ rest ih =>
    rw [List.foldl_cons, ih, mem_keys_dictInsert]
    simp only [List.mem_cons]
    constructor
    · rintro ((h | h) | ⟨r, hr, hk⟩)
      · exact Or.inr ⟨r₀, Or.inl rfl, h.symm⟩
      · exact Or.inl h
      · exact Or.inr ⟨r, Or.inr hr, hk⟩
    · rintro (h | ⟨r, h | h, hk⟩)
      · exact Or.inl (Or.inr h)
      · subst h; exact Or.inl (Or.inl hk.symm)
      · exact Or.inr ⟨r, h, hk⟩

lemma nodup_keys_relFoldl {E : Type} [DecidableEq E] (l : List (Relationship E))
    (acc : List (RelKey E × LoaderFactory E)) (h : (acc.map Prod.fst).Nodup) :
    ((l.foldl (fun a r => dictInsert (relKey r) (generate_loader_by_foreign_key r) a)
        acc).map Prod.fst).Nodup := by
  induction l generalizing acc with
  | nil => exact h
  | cons r₀ rest ih =>
    rw [List.foldl_cons]
    exact ih _ (nodup_keys_dictInsert _ _ _ h)

lemma makeLoaders_keys {E S : Type} (ls : List (RelKey E × LoaderFactory E)) (s : S)
    (b : Nat) : (makeLoaders ls s b).map Prod.fst = ls.map Prod.fst := by
  induction ls generalizing b with
  | nil => rfl
  | cons p rest ih =>
    obtain ⟨k, f⟩ := p
    simp [makeLoaders, ih]

lemma mem_makeLoaders {E S : Type} (ls : List (RelKey E × LoaderFactory E)) (s : S)
    (b : Nat) (p : RelKey E × Loader E S) (hp : p ∈ makeLoaders ls s b) :
    p.2.session = s ∧ b ≤ p.2.allocId ∧ p.2.allocId < b + ls.length := by
  induction ls generalizing b with
  | nil => cases hp
  | cons q rest ih =>
    obtain ⟨k, f⟩ := q
    rcases List.mem_cons.mp hp with h | h
    · subst h
      refine ⟨rfl, Nat.le_refl _, ?_⟩
      simp only [List.length_cons]
      omega
    · obtain ⟨h1, h2, h3⟩ := ih _ h
      refine ⟨h1, by omega, ?_⟩
      simp only [List.length_cons]
      omega

/-- C1, counterexample: over 100 rows, the end cursor of a `first = 20`
page decodes to offset 19, and `last = 10, before = it` returns the rows
at positions 9 through 18 — not positions 10 through 19 as the claim
states (position 19 is the cursor's own row, which `before` excludes). -/
theorem c1_counterexample :
    (lastBeforePipeline 100 10 20 10).map Page.rows ≠ .ok (List.range' 10 10) := by
  decide

/-- C1, amended: for a dataset of 100 rows, given the end cursor of a
`first = 20` page, a `last = 10, before = endCursor` query returns exactly
the 10 rows immediately preceding the cursor's row, i.e. positions 9
through 18, with `hasPreviousPage = true` — matching the assertion
`editors[0].name == "Editor#9"` of `test_last_before_specified`. -/
theorem c1_last_before_page :
    (lastBeforePipeline 100 10 20 10).map
      (fun p => (p.rows, p.pageInfo.hasPreviousPage)) = .ok (List.range' 9 10, true) := by
  decide

/-- C2: whenever both `first` and `last` are supplied — whatever their
values and whatever `before`/`after` cursors accompany them — the
connection query fails with `InvalidPagination` and never returns a
page. -/
theorem c2_first_last_mutually_exclusive (N D : Nat) (tb : Bool) (f l : Int)
    (a b : Option Nat) :
    applyWindow N D tb ⟨some f, some l, a, b⟩ = .error .invalidPagination := by
  unfold applyWindow
  simp

/-- C3: when both `first` and `last` are supplied with a non-positive
effective window, or when `first` or `last` is negative, the Connection
Windower fails with `InvalidPagination` instead of returning an empty
page. -/
theorem c3_invalid_window_or_negative (N D : Nat) (tb : Bool) (args : ConnectionArgs)
    (h : (args.first.isSome ∧ args.last.isSome ∧ effectiveWindow N args ≤ 0)
      ∨ (∃ f, args.first = some f ∧ f < 0)
      ∨ (∃ l, args.last = some l ∧ l < 0)) :
    applyWindow N D tb args = .error .invalidPagination := by
  rcases h with ⟨h1, h2, _⟩ | ⟨f, hf, hneg⟩ | ⟨l, hl, hneg⟩
  · unfold applyWindow
    rw [if_pos ⟨h1, h2⟩]
  · by_cases hlast : args.last.isSome
    · unfold applyWindow
      rw [if_pos ⟨by simp [hf], hlast⟩]
    · unfold applyWindow
      rw [if_neg (by simp [hlast]), if_pos (Or.inl (by simp [hf, hneg]))]
  · by_cases hfirst : args.first.isSome
    · unfold applyWindow
      rw [if_pos ⟨hfirst, by simp [hl]⟩]
    · unfold applyWindow
      rw [if_neg (by simp [hfirst]), if_pos (Or.inr (by simp [hl, hneg]))]

/-- C3, witness: `first = -1` is negative, and the windower rejects it
with `InvalidPagination` on a concrete five-row dataset. -/
theorem c3_witness :
    (∃ f, (some (-1 : Int)) = some f ∧ f < 0) ∧
      applyWindow 5 10 true ⟨some (-1), none, none, none⟩ = .error .invalidPagination :=
  ⟨⟨-1, rfl, by decide⟩,
    c3_invalid_window_or_negative 5 10 true ⟨some (-1), none, none, none⟩
      (Or.inr (Or.inl ⟨-1, rfl, by decide⟩))⟩

/-- C4: supplying `last` (any non-negative value, e.g. `last = 1`) with no
other bound, over a base query with no deterministic tiebreaker ordering,
fails with an error rather than returning any row. -/
theorem c4_last_without_tiebreaker_fails (N D l : Nat) :
    applyWindow N D false ⟨none, some (l : Int), none, none⟩ = .error .ambiguousOrdering := by
  unfold applyWindow
  rw [if_neg (by simp), if_neg (by simp only [Option.getD_none, Option.getD_some]; omega),
    if_pos ⟨rfl, rfl, rfl, rfl, rfl⟩]

/-- C5, counterexample: a query with `first = last = none` but
`after = cursor(5)` over 100 rows returns a page with
`hasPreviousPage = true`, refuting the claim's unconditional
`hasPreviousPage = false` for every query without `first`/`last`. -/
theorem c5_counterexample :
    (applyWindow 100 10 true ⟨none, none, some 5, none⟩).map
      (fun p => p.pageInfo.hasPreviousPage) = .ok true := by
  decide

/-- C5, amended: for every connection query in which neither `first` nor
`last` nor any `before`/`after` cursor is supplied, over a non-empty
dataset of `N` rows and with a positive default page size `D`, the
returned page's length equals `min(default_page_size, available_rows)`,
`startCursor` and `endCursor` are set, `hasPreviousPage = false`, and
`hasNextPage = true` exactly when more rows exist beyond the slice. -/
theorem c5_default_page_size (N D : Nat) (tb : Bool) (hN : 0 < N) (hD : 0 < D) :
    (applyWindow N D tb ⟨none, none, none, none⟩).map
      (fun p =>
        (p.rows.length, p.pageInfo.startCursor.isSome, p.pageInfo.endCursor.isSome,
          p.pageInfo.hasPreviousPage, p.pageInfo.hasNextPage))
      = .ok (min D N, true, true, false, decide (min D N < N)) := by
  unfold applyWindow
  rw [if_neg (by simp), if_neg (by simp), if_neg (by simp)]
  simp only [loBound, hiBound, Option.getD_none]
  have hK : ((min (min (-1 + (D : Int)) ((N : Int) - 1)) ((N : Int) - 1) + 1) -
      (max (-1 + 1) 0)).toNat = min D N := by omega
  simp only [Except.map]
  rw [hK]
  have h1 : (((-1 : Int) + 1) ⊔ 0).toNat = 0 := rfl
  rw [h1]
  obtain ⟨k, hk⟩ : ∃ k, D ⊓ N = k + 1 := ⟨D ⊓ N - 1, by omega⟩
  rw [hk, List.range'_succ]
  have hnext : decide ((-1 + (D : Int)) ⊓ ((N : Int) - 1) ⊓ ((N : Int) - 1) + 1 < (N : Int))
      = decide (D ⊓ N < N) := by
    rw [decide_eq_decide]
    omega
  rw [hnext]
  have hgl : ((0 :: List.range' 1 k).getLast?).isSome = true :=
    List.getLast?_isSome.mpr (by simp)
  simp [hgl, hk, Option.isSome_map]

/-- C5, witness: with 100 rows and default page size 10, the default
query returns 10 rows, cursors set, no previous page and a next page. -/
theorem c5_witness :
    0 < 100 ∧ 0 < 10 ∧
      (applyWindow 100 10 true ⟨none, none, none, none⟩).map
        (fun p =>
          (p.rows.length, p.pageInfo.startCursor.isSome, p.pageInfo.endCursor.isSome,
            p.pageInfo.hasPreviousPage, p.pageInfo.hasNextPage))
        = .ok (min 10 100, true, true, false, decide (min 10 100 < 100)) :=
  ⟨by decide, by decide, c5_default_page_size 100 10 true (by decide) (by decide)⟩

/-- C6: for a dataset of 100 rows, given the end cursor of a `first = 10`
page (offset 9), a `first = 10, after = endCursor` query returns exactly
the rows at positions 10 through 19, with `hasPreviousPage = true` and
`hasNextPage = true` — matching `test_query_first_after_specified`. -/
theorem c6_first_after_page :
    (firstAfterPipeline 100 10 10 10).map
      (fun p => (p.rows, p.pageInfo.hasPreviousPage, p.pageInfo.hasNextPage))
      = .ok (List.range' 10 10, true, true) := by
  decide

/-- C7: for every non-negative integer `n`, `decode(encode(n)) = n`, and
the encoding is injective (hence a bijection onto its range of cursor
strings): equal cursors come from equal positions. -/
theorem c7_roundtrip (n m : Nat) (h : encodeCursor n = encodeCursor m) :
    decodeCursor (encodeCursor n) = .ok n ∧ n = m := by
  refine ⟨decodeCursor_encodeCursor n, ?_⟩
  have h2 := congrArg decodeCursor h
  rw [decodeCursor_encodeCursor, decodeCursor_encodeCursor] at h2
  exact Except.ok.inj h2

/-- C7, witness: the round trip at position 7. -/
theorem c7_witness : decodeCursor (encodeCursor 7) = .ok 7 ∧ 7 = 7 :=
  c7_roundtrip 7 7 rfl

/-- C8: the Loader Registry built from a set of entity types has
pairwise-distinct keys; a key is present exactly when some declared
relationship among those types carries it; every declared relationship's
key maps to the loader factory generated from that relationship; and
every instance produced for the execution context is bound to the active
data-access session. -/
theorem c8_loader_registry {E S : Type} [DecidableEq E] (models : List (ModelDef E))
    (session : S) (base : Nat) (hnd : ((allRels models).map relKey).Nodup) :
    ((initLoaders models).map Prod.fst).Nodup
    ∧ (∀ k : RelKey E,
        (dictFind k (initLoaders models)).isSome ↔ ∃ r ∈ allRels models, relKey r = k)
    ∧ (∀ r ∈ allRels models,
        dictFind (relKey r) (initLoaders models) = some (generate_loader_by_foreign_key r))
    ∧ (∀ p ∈ makeLoaders (initLoaders models) session base, p.2.session = session) := by
  refine ⟨?_, ?_, ?_, ?_⟩
  · rw [initLoaders_eq_foldl]
    exact nodup_keys_relFoldl _ _ (by simp)
  · intro k
    rw [initLoaders_eq_foldl, dictFind_isSome_iff, mem_keys_relFoldl]
    simp
  · intro r hr
    rw [initLoaders_eq_foldl]
    exact dictFind_relFoldl_mem _ _ _ hr hnd
  · intro p hp
    exact (mem_makeLoaders _ _ _ _ hp).1

/-- C8, witness: a single model declaring one relationship
`(0, 1, "books")`, with session `5`. -/
theorem c8_witness :
    ((initLoaders [ModelDef.mk [⟨0, 1, "books"⟩]]).map Prod.fst).Nodup
    ∧ (∀ k : RelKey Nat,
        (dictFind k (initLoaders [ModelDef.mk [⟨0, 1, "books"⟩]])).isSome ↔
          ∃ r ∈ allRels [ModelDef.mk [⟨0, 1, "books"⟩]], relKey r = k)
    ∧ (∀ r ∈ allRels [ModelDef.mk [⟨0, 1, "books"⟩]],
        dictFind (relKey r) (initLoaders [ModelDef.mk [⟨0, 1, "books"⟩]]) =
          some (generate_loader_by_foreign_key r))
    ∧ (∀ p ∈ makeLoaders (initLoaders [ModelDef.mk [⟨0, 1, "books"⟩]]) (5 : Nat) 0,
        p.2.session = 5) :=
  c8_loader_registry [ModelDef.mk [⟨0, 1, "books"⟩]] 5 0 (by decide)

/-- C9: loader instances are never shared across two top-level query
executions. For two root resolutions run one after the other (the second
starting from the first's allocation state), every loader placed on the
first context is created fresh within that resolution's allocation span,
every loader on the second context is allocated after the first resolution
finished, and no loader instance occurs in both contexts. -/
theorem c9_loaders_never_shared {E S ρ₁ ρ₂ α₁ α₂ β₁ β₂ : Type} (mw : LoaderMiddleware E)
    (next₁ : Option ρ₁ → ExecutionContext E S → β₁ → ResolverResult α₁)
    (next₂ : Option ρ₂ → ExecutionContext E S → β₂ → ResolverResult α₂)
    (ctx₁ ctx₂ : ExecutionContext E S) (alloc : Nat) (args₁ : β₁) (args₂ : β₂) :
    (∀ p ∈ (mw.resolve next₁ none ctx₁ alloc args₁).2.1.loaders,
        alloc ≤ p.2.allocId ∧ p.2.allocId < (mw.resolve next₁ none ctx₁ alloc args₁).2.2)
    ∧ (∀ q ∈ (mw.resolve next₂ none ctx₂
          (mw.resolve next₁ none ctx₁ alloc args₁).2.2 args₂).2.1.loaders,
        (mw.resolve next₁ none ctx₁ alloc args₁).2.2 ≤ q.2.allocId)
    ∧ (∀ p ∈ (mw.resolve next₁ none ctx₁ alloc args₁).2.1.loaders,
        ∀ q ∈ (mw.resolve next₂ none ctx₂
            (mw.resolve next₁ none ctx₁ alloc args₁).2.2 args₂).2.1.loaders,
          p.2 ≠ q.2) := by
  have hb₁ : ∀ p ∈ (mw.resolve next₁ none ctx₁ alloc args₁).2.1.loaders,
      alloc ≤ p.2.allocId ∧ p.2.allocId < alloc + mw.loaders.length := by
    intro p hp
    exact (mem_makeLoaders _ _ _ _ hp).2
  have hcnt : (mw.resolve next₁ none ctx₁ alloc args₁).2.2 = alloc + mw.loaders.length := rfl
  have hb₂ : ∀ q ∈ (mw.resolve next₂ none ctx₂
      (mw.resolve next₁ none ctx₁ alloc args₁).2.2 args₂).2.1.loaders,
      (mw.resolve next₁ none ctx₁ alloc args₁).2.2 ≤ q.2.allocId := by
    intro q hq
    exact (mem_makeLoaders _ _ _ _ hq).2.1
  refine ⟨fun p hp => ⟨(hb₁ p hp).1, by rw [hcnt]; exact (hb₁ p hp).2⟩, hb₂, ?_⟩
  intro p hp q hq hpq
  have h1 := (hb₁ p hp).2
  have h2 := hb₂ q hq
  rw [hcnt] at h2
  have h3 : p.2.allocId = q.2.allocId := congrArg Loader.allocId hpq
  omega

/-- C9, witness: two consecutive root resolutions of the one-relationship
example middleware share no loader instance. -/
theorem c9_witness :
    (∀ p ∈ (mwExample.resolve nextExample none ctxExample 0 ()).2.1.loaders,
        0 ≤ p.2.allocId ∧
          p.2.allocId < (mwExample.resolve nextExample none ctxExample 0 ()).2.2)
    ∧ (∀ q ∈ (mwExample.resolve nextExample none ctxExample2
          (mwExample.resolve nextExample none ctxExample 0 ()).2.2 ()).2.1.loaders,
        (mwExample.resolve nextExample none ctxExample 0 ()).2.2 ≤ q.2.allocId)
    ∧ (∀ p ∈ (mwExample.resolve nextExample none ctxExample 0 ()).2.1.loaders,
        ∀ q ∈ (mwExample.resolve nextExample none ctxExample2
            (mwExample.resolve nextExample none ctxExample 0 ()).2.2 ()).2.1.loaders,
          p.2 ≠ q.2) :=
  c9_loaders_never_shared mwExample nextExample nextExample ctxExample ctxExample2 0 () ()

/-- C10: when `root` is not `None`, `resolve` leaves the execution context
unchanged, allocates nothing, and returns the inner resolver's result
unmodified (awaited first when awaitable); when `root` is `None`,
`context.loaders` is unconditionally replaced by a fresh mapping bound to
the active session whose key set equals exactly the relationship-key set
computed at middleware construction, and the inner resolver's result on
the updated context is returned. -/
theorem c10_resolve_frame {E S ρ α β : Type} (mw : LoaderMiddleware E)
    (next_ : Option ρ → ExecutionContext E S → β → ResolverResult α)
    (root : Option ρ) (ctx : ExecutionContext E S) (alloc : Nat) (args : β) :
    (∀ r, root = some r →
        mw.resolve next_ root ctx alloc args = (awaitIfNeeded (next_ root ctx args), ctx, alloc))
    ∧ (root = none →
        (mw.resolve next_ root ctx alloc args).2.1.loaders.map Prod.fst =
            mw.loaders.map Prod.fst
          ∧ (mw.resolve next_ root ctx alloc args).2.1.loaders =
              makeLoaders mw.loaders (get_session ctx) alloc
          ∧ (mw.resolve next_ root ctx alloc args).2.1.session = ctx.session
          ∧ (mw.resolve next_ root ctx alloc args).1 =
              awaitIfNeeded (next_ root (mw.resolve next_ root ctx alloc args).2.1 args)) := by
  cases root with
  | some r =>
    exact ⟨fun _ _ => rfl, fun h => by cases h⟩
  | none =>
    constructor
    · intro r h
      cases h
    · intro h2
      exact ⟨makeLoaders_keys mw.loaders (get_session ctx) alloc, rfl, rfl, rfl⟩

/-- C10, witness: the frame property instantiated at the example
middleware with `root = None`. -/
theorem c10_witness :
    (∀ r : Unit, (none : Option Unit) = some r →
        mwExample.resolve nextExample none ctxExample 0 () =
          (awaitIfNeeded (nextExample none ctxExample ()), ctxExample, 0))
    ∧ ((none : Option Unit) = none →
        (mwExample.resolve nextExample none ctxExample 0 ()).2.1.loaders.map Prod.fst =
            mwExample.loaders.map Prod.fst
          ∧ (mwExample.resolve nextExample none ctxExample 0 ()).2.1.loaders =
              makeLoaders mwExample.loaders (get_session ctxExample) 0
          ∧ (mwExample.resolve nextExample none ctxExample 0 ()).2.1.session =
              ctxExample.session
          ∧ (mwExample.resolve nextExample none ctxExample 0 ()).1 =
              awaitIfNeeded (nextExample none
                (mwExample.resolve nextExample none ctxExample 0 ()).2.1 ())) :=
  c10_resolve_frame mwExample nextExample none ctxExample 0 ()
